import Mathlib

/-!
Verification of the persistent CLI to-do application (`todo.py`).

The program stores tasks in a text file, one `<flag>|<text>` line per task
(`0` = not done, `1` = done), and runs a read-eval-print loop over the
commands list / add / remove / done / undo / clear / help / quit.

The embedding below models characters as `Char`, strings as `List Char`,
the backing file as `Option (List Char)` (`none` = the file is absent) and
printed output as the `List Char` of everything the operation writes to
standard output (every `print s` appends `s` plus a newline).
-/

namespace Todo

/-- One task record: a completion flag and the free text, as in the Python
dictionaries `{"done": ..., "text": ...}`. -/
structure Task where
  done : Bool
  text : List Char
deriving DecidableEq, Repr

instance : Inhabited Task := ⟨⟨false, []⟩⟩

/-- The whitespace characters stripped by Python `str.strip()` (ASCII part). -/
def pyWs (c : Char) : Bool :=
  c = ' ' || c = '\t' || c = '\n' || c = '\r' || c = '\x0b' || c = '\x0c'

/-- Python `str.strip()`: drop whitespace from both ends. -/
def pyStrip (l : List Char) : List Char :=
  ((l.dropWhile pyWs).reverse.dropWhile pyWs).reverse

/-- Python `str.lower()` (ASCII part). -/
def pyLower (l : List Char) : List Char :=
  l.map Char.toLower

/-- Python `s.split(sep, 1)`: split on the first occurrence of `sep`.
Returns `[l]` when `sep` does not occur, `[before, after]` otherwise. -/
def splitFirst (sep : Char) : List Char → List (List Char)
  | [] => [[]]
  | c :: rest =>
    if c = sep then [[], rest]
    else
      match splitFirst sep rest with
      | [] => [[c]]
      | x :: xs => (c :: x) :: xs

/-- Split a character stream at every newline, `String.split` style:
`"a\nb" ↦ ["a", "b"]`, `"a\n" ↦ ["a", ""]`, `"" ↦ [""]`.  Python's
line iteration over a text file yields the same non-empty chunks. -/
def splitNl : List Char → List (List Char)
  | [] => [[]]
  | c :: rest =>
    if c = '\n' then [] :: splitNl rest
    else
      match splitNl rest with
      | [] => [[c]]
      | x :: xs => (c :: x) :: xs

/-- Universal-newline translation performed by Python when reading a file in
text mode: `"\r\n"` and `"\r"` both become `"\n"`. -/
def univNl : List Char → List Char
  | [] => []
  | '\r' :: '\n' :: rest => '\n' :: univNl rest
  | '\r' :: rest => '\n' :: univNl rest
  | c :: rest => c :: univNl rest

/-- Parse one non-empty line of the backing file
(`parts = line.split("|", 1)`; a valid `0`/`1` flag yields a task with that
flag, anything else falls back to the whole line as not-done text). -/
def parseLine (line : List Char) : Task :=
  match splitFirst '|' line with
  | [p0, p1] =>
    if p0 = ['0'] || p0 = ['1'] then
      { done := p0 = ['1'], text := p1 }
    else
      { done := false, text := line }
  | _ => { done := false, text := line }

/-- The lines of the backing file's content that survive
`line.rstrip("\n")` plus the skip of empty lines in `load_tasks`. -/
def fileLines (content : List Char) : List (List Char) :=
  (splitNl (univNl content)).filter (fun l => l ≠ [])

/-- `load_tasks()`: an absent file yields the empty list; otherwise every
non-empty line of the file yields one task via `parseLine`. -/
def load_tasks : Option (List Char) → List Task
  | none => []
  | some content => (fileLines content).map parseLine

/-- The line written for one task, without the terminator: `<flag>|<text>`
(`status = "1" if t.get("done") else "0"`). -/
def encodeLine (t : Task) : List Char :=
  (if t.done then '1' else '0') :: '|' :: t.text

/-- The serialized form of one task: `<flag>|<text>\n`. -/
def encodeTask (t : Task) : List Char :=
  encodeLine t ++ ['\n']

/-- The full content `save_tasks` writes: the tasks' lines in order. -/
def saveContent (tasks : List Task) : List Char :=
  (tasks.map encodeTask).flatten

/-- `save_tasks(tasks)`: rewrite the backing file completely (the file
exists afterwards even when `tasks` is empty). -/
def save_tasks (tasks : List Task) : Option (List Char) :=
  some (saveContent tasks)

/-- `clear_tasks()`: delete the backing file (a no-op when absent) and
report; returns the new file state and the printed output. -/
def clear_tasks (_file : Option (List Char)) : Option (List Char) × List Char :=
  (none, "All tasks cleared.\n".toList)

/-- Python `f"{i:2d}"`: decimal representation right-aligned to width 2. -/
def pad2 (i : Nat) : List Char :=
  let s := (toString i).toList
  List.replicate (2 - s.length) ' ' ++ s

/-- The line `list_tasks` prints for the task at 1-based position `i`. -/
def taskLine (i : Nat) (t : Task) : List Char :=
  pad2 i ++ ". ".toList ++ (if t.done then "[x]" else "[ ]").toList
    ++ [' '] ++ t.text ++ ['\n']

/-- The task lines for a list, numbering from `i`. -/
def taskLinesFrom (i : Nat) : List Task → List Char
  | [] => []
  | t :: ts => taskLine i t ++ taskLinesFrom (i + 1) ts

/-- `list_tasks(tasks)`: the full standard-output text of the listing. -/
def list_tasks (tasks : List Task) : List Char :=
  if tasks = [] then "No tasks yet. Add one!\n\n".toList
  else "\nYour To-Do List:\n".toList ++ taskLinesFrom 1 tasks ++ ['\n']

/-- Result of a mutating task operation: the new in-memory list, the new
backing-file state, and the printed output. -/
structure OpResult where
  tasks : List Task
  file : Option (List Char)
  out : List Char
deriving DecidableEq, Repr

/-- `add_task(tasks, text)`: strip the text; reject when empty, otherwise
append a not-done task and persist. -/
def add_task (tasks : List Task) (file : Option (List Char))
    (text : List Char) : OpResult :=
  let t := pyStrip text
  if t = [] then
    ⟨tasks, file, "Empty task not added.\n".toList⟩
  else
    let tasks2 := tasks ++ [⟨false, t⟩]
    ⟨tasks2, save_tasks tasks2, "Added task: ".toList ++ t ++ ['\n']⟩

/-- Python `int(s)` restricted to ASCII: optional surrounding whitespace,
optional sign, one or more decimal digits; `none` models `ValueError`. -/
def parseDigits (l : List Char) : Option Nat :=
  if l ≠ [] ∧ l.all (fun c => c.isDigit) then
    some (l.foldl (fun n c => n * 10 + (c.toNat - 48)) 0)
  else none

/-- Python `int(s)` on a full string (sign handling and whitespace). -/
def pyInt (l : List Char) : Option Int :=
  match pyStrip l with
  | '+' :: ds => (parseDigits ds).map (fun n => (n : Int))
  | '-' :: ds => (parseDigits ds).map (fun n => -(n : Int))
  | ds => (parseDigits ds).map (fun n => (n : Int))

/-- `remove_task(tasks, index)`: parse the 1-based index, reject a
non-integer or out-of-range value, otherwise pop the task and persist. -/
def remove_task (tasks : List Task) (file : Option (List Char))
    (index : List Char) : OpResult :=
  match pyInt index with
  | none => ⟨tasks, file, "Please enter a valid number.\n".toList⟩
  | some v =>
    if v - 1 < 0 ∨ v - 1 ≥ (tasks.length : Int) then
      ⟨tasks, file, "Invalid task number.\n".toList⟩
    else
      let i := (v - 1).toNat
      let removed := tasks.getD i default
      ⟨tasks.eraseIdx i, save_tasks (tasks.eraseIdx i),
        "Removed task: ".toList ++ removed.text ++ ['\n']⟩

/-- `mark_done(tasks, index, done)`: same index validation as
`remove_task`; on success set the addressed task's flag, persist, and print
the status line with the original index string. -/
def mark_done (tasks : List Task) (file : Option (List Char))
    (index : List Char) (done : Bool) : OpResult :=
  match pyInt index with
  | none => ⟨tasks, file, "Please enter a valid number.\n".toList⟩
  | some v =>
    if v - 1 < 0 ∨ v - 1 ≥ (tasks.length : Int) then
      ⟨tasks, file, "Invalid task number.\n".toList⟩
    else
      let i := (v - 1).toNat
      let tasks2 := tasks.set i { tasks.getD i default with done := done }
      ⟨tasks2, save_tasks tasks2,
        "Marked task ".toList ++ index ++ " as: ".toList
          ++ (if done then "Done" else "Not done").toList ++ ['\n']⟩

/-- `show_help()`: the full standard-output text of the help command (the
triple-quoted block plus the newline `print` appends). -/
def show_help : List Char :=
  ("\nCommands:\n  l, list                 - List all tasks\n  a, add <task text>      - Add a new task\n  r, remove <task no>     - Remove a task by its number\n  d, done <task no>       - Mark task done\n  u, undo <task no>       - Mark task not done\n  c, clear                - Remove all tasks\n  h, help                 - Show this help\n  q, quit, exit           - Exit the app\n\n").toList

/-- The loop's state: the in-memory task list and the backing file. -/
structure LoopState where
  tasks : List Task
  file : Option (List Char)
deriving DecidableEq, Repr

/-- The state `main` starts from: the tasks freshly loaded from the file. -/
def initState (file : Option (List Char)) : LoopState :=
  ⟨load_tasks file, file⟩

/-- One iteration of `main`'s loop on input line `line`.  `promptLine` is
the line the user would type at the secondary prompt (missing-argument
prompt or clear confirmation) when one is issued.  Returns the new state,
the printed output, and whether the loop terminates. -/
def step (st : LoopState) (line promptLine : List Char) :
    LoopState × List Char × Bool :=
  let cmd := pyStrip line
  if cmd = [] then (st, [], false)
  else
    let parts := splitFirst ' ' cmd
    let action := pyLower (parts.getD 0 [])
    let arg := if parts.length > 1 then parts.getD 1 [] else []
    if action = "l".toList ∨ action = "list".toList then
      (st, list_tasks st.tasks, false)
    else if action = "a".toList ∨ action = "add".toList then
      let arg2 := if arg = [] then pyStrip promptLine else arg
      let r := add_task st.tasks st.file arg2
      (⟨load_tasks r.file, r.file⟩, r.out, false)
    else if action = "r".toList ∨ action = "remove".toList then
      let arg2 := if arg = [] then pyStrip promptLine else arg
      let r := remove_task st.tasks st.file arg2
      (⟨load_tasks r.file, r.file⟩, r.out, false)
    else if action = "d".toList ∨ action = "done".toList then
      let arg2 := if arg = [] then pyStrip promptLine else arg
      let r := mark_done st.tasks st.file arg2 true
      (⟨load_tasks r.file, r.file⟩, r.out, false)
    else if action = "u".toList ∨ action = "undo".toList then
      let arg2 := if arg = [] then pyStrip promptLine else arg
      let r := mark_done st.tasks st.file arg2 false
      (⟨load_tasks r.file, r.file⟩, r.out, false)
    else if action = "c".toList ∨ action = "clear".toList then
      let confirm := pyLower (pyStrip promptLine)
      if confirm = "y".toList then
        let c := clear_tasks st.file
        (⟨[], c.1⟩, c.2, false)
      else (st, "Canceled.\n".toList, false)
    else if action = "h".toList ∨ action = "help".toList then
      (st, show_help, false)
    else if action = "q".toList ∨ action = "quit".toList
        ∨ action = "exit".toList then
      (st, "Bye!\n".toList, true)
    else
      (st, "Unknown command. Type \x27h\x27 or \x27help\x27 to see commands.\n".toList, false)

/-- Decoder state of the strict UTF-8 decoder used by
`open(TASKS_FILE, "r", encoding="utf-8")`: the code-point bits accumulated
so far, how many continuation bytes are still needed, and the allowed
range for the next byte (the range of the first continuation byte encodes
the overlong-, surrogate- and beyond-U+10FFFF rejections). -/
structure Utf8State where
  acc : Nat
  needed : Nat
  lo : Nat
  hi : Nat
deriving DecidableEq, Repr

/-- One byte of strict UTF-8 decoding; `none` is a decode error.  Lead
bytes `0x80`–`0xC1` and `0xF5`–`0xFF` are invalid; `0xE0`/`0xED` and
`0xF0`/`0xF4` restrict their first continuation byte exactly as the
well-formed-sequence table of the Unicode standard (and CPython's strict
utf-8 codec) prescribes. -/
def utf8Step (acc : Option (Utf8State × List Char)) (b : Nat) :
    Option (Utf8State × List Char) :=
  match acc with
  | none => none
  | some (st, out) =>
    if st.needed = 0 then
      if b < 0x80 then some (st, Char.ofNat b :: out)
      else if b < 0xC2 then none
      else if b ≤ 0xDF then some (⟨b - 0xC0, 1, 0x80, 0xBF⟩, out)
      else if b = 0xE0 then some (⟨0, 2, 0xA0, 0xBF⟩, out)
      else if b = 0xED then some (⟨0xD, 2, 0x80, 0x9F⟩, out)
      else if b ≤ 0xEF then some (⟨b - 0xE0, 2, 0x80, 0xBF⟩, out)
      else if b = 0xF0 then some (⟨0, 3, 0x90, 0xBF⟩, out)
      else if b ≤ 0xF3 then some (⟨b - 0xF0, 3, 0x80, 0xBF⟩, out)
      else if b = 0xF4 then some (⟨4, 3, 0x80, 0x8F⟩, out)
      else none
    else
      if st.lo ≤ b ∧ b ≤ st.hi then
        if st.needed = 1 then
          some (⟨0, 0, 0, 0⟩, Char.ofNat (st.acc * 64 + (b - 0x80)) :: out)
        else some (⟨st.acc * 64 + (b - 0x80), st.needed - 1, 0x80, 0xBF⟩, out)
      else none

/-- Strict UTF-8 decoding of a whole byte sequence, as Python performs it
when reading the backing file in text mode with `encoding="utf-8"`;
`none` models the uncaught `UnicodeDecodeError` (a truncated trailing
sequence is an error too). -/
def utf8Decode (bytes : List Nat) : Option (List Char) :=
  match bytes.foldl utf8Step (some (⟨0, 0, 0, 0⟩, [])) with
  | none => none
  | some (st, out) => if st.needed = 0 then some out.reverse else none

/-- `load_tasks()` seen at the byte level: an absent file yields the empty
list; a present file is first decoded strictly as UTF-8 — `none` models
the uncaught `UnicodeDecodeError` that aborts the load — and the decoded
text is then split and parsed exactly as `load_tasks` does. -/
def load_tasks_bytes : Option (List Nat) → Option (List Task)
  | none => some []
  | some bytes => (utf8Decode bytes).map (fun content => load_tasks (some content))

/-! ### Helper lemmas about the character-level functions -/

theorem univNl_no_cr (m : List Char) : '\r' ∉ univNl m := by
  induction m using univNl.induct with
  | case1 => simp [univNl]
  | case2 rest ih => simp [univNl]; exact ih
  | case3 rest h ih =>
    rw [univNl.eq_3 rest h]
    simp
    exact ih
  | case4 c rest h hc ih =>
    rw [univNl.eq_4 c rest (fun r hc2 hr => h r hc2 hr) hc]
    simp
    exact ⟨fun hcc => hc hcc.symm, ih⟩

theorem univNl_eq_self (m : List Char) (h : '\r' ∉ m) : univNl m = m := by
  induction m with
  | nil => rfl
  | cons c rest ih =>
    simp at h
    rw [univNl.eq_4 c rest (fun r hc2 hr => absurd hc2.symm h.1)
      (fun hc2 => h.1 hc2.symm)]
    rw [ih h.2]

theorem splitFirst_shape (sep : Char) (l : List Char) :
    (∃ x, splitFirst sep l = [x]) ∨ ∃ a b, splitFirst sep l = [a, b] := by
  induction l with
  | nil => exact Or.inl ⟨[], rfl⟩
  | cons c rest ih =>
    by_cases hc : c = sep
    · exact Or.inr ⟨[], rest, by simp [splitFirst, hc]⟩
    · rcases ih with ⟨x, hx⟩ | ⟨a, b, hab⟩
      · exact Or.inl ⟨c :: x, by simp [splitFirst, hc, hx]⟩
      · exact Or.inr ⟨c :: a, b, by simp [splitFirst, hc, hab]⟩

theorem splitFirst_two {sep : Char} :
    ∀ {l a b : List Char}, splitFirst sep l = [a, b] → l = a ++ sep :: b := by
  intro l
  induction l with
  | nil => intro a b h; simp [splitFirst] at h
  | cons c rest ih =>
    intro a b h
    by_cases hc : c = sep
    · simp [splitFirst, hc] at h
      simp [h.1, ← h.2, hc]
    · rcases hr : splitFirst sep rest with _ | ⟨x, xs⟩
      · simp [splitFirst, hc, hr] at h
      · simp [splitFirst, hc, hr] at h
        rcases h with ⟨h1, h2⟩
        rcases xs with _ | ⟨y, ys⟩
        · simp at h2
        · simp at h2
          subst h1
          have := ih (a := x) (b := b) (by rw [hr, h2.1, h2.2])
          simp [this]

theorem splitFirst_flag {f : Char} (hf : f ≠ '|') (t : List Char) :
    splitFirst '|' (f :: '|' :: t) = [[f], t] := by
  simp [splitFirst, hf]

theorem splitNl_ne_nil : ∀ m : List Char, splitNl m ≠ [] := by
  intro m
  cases m with
  | nil => simp [splitNl]
  | cons c rest =>
    by_cases hc : c = '\n'
    · simp [splitNl, hc]
    · rcases hr : splitNl rest with _ | ⟨x, xs⟩
      · simp [splitNl, hc, hr]
      · simp [splitNl, hc, hr]

theorem splitNl_append : ∀ {a : List Char} (b : List Char), '\n' ∉ a →
    splitNl (a ++ '\n' :: b) = a :: splitNl b := by
  intro a
  induction a with
  | nil => intro b _; simp [splitNl]
  | cons c rest ih =>
    intro b h
    simp at h
    have hc : ¬ c = '\n' := fun hcc => h.1 hcc.symm
    have hr := ih b h.2
    simp [splitNl, hc, hr]

theorem splitNl_no_nl : ∀ {m x : List Char}, x ∈ splitNl m → '\n' ∉ x := by
  intro m
  induction m with
  | nil => intro x hx; simp [splitNl] at hx; simp [hx]
  | cons c rest ih =>
    intro x hx
    by_cases hc : c = '\n'
    · simp [splitNl, hc] at hx
      rcases hx with hx | hx
      · simp [hx]
      · exact ih hx
    · rcases hr : splitNl rest with _ | ⟨y, ys⟩
      · exact absurd hr (splitNl_ne_nil rest)
      · simp [splitNl, hc, hr] at hx
        rcases hx with hx | hx
        · subst hx
          intro hmem
          rcases List.mem_cons.mp hmem with h1 | h1
          · exact hc h1.symm
          · exact ih (hr ▸ List.mem_cons_self y ys) h1
        · exact ih (by rw [hr]; exact List.mem_cons_of_mem y hx)

theorem splitNl_subset :
    ∀ {m x : List Char}, x ∈ splitNl m → ∀ {c : Char}, c ∈ x → c ∈ m := by
  intro m
  induction m with
  | nil => intro x hx c hc; simp [splitNl] at hx; subst hx; simp at hc
  | cons d rest ih =>
    intro x hx c hc
    by_cases hd : d = '\n'
    · simp [splitNl, hd] at hx
      rcases hx with hx | hx
      · subst hx; simp at hc
      · exact List.mem_cons_of_mem d (ih hx hc)
    · rcases hr : splitNl rest with _ | ⟨y, ys⟩
      · exact absurd hr (splitNl_ne_nil rest)
      · simp [splitNl, hd, hr] at hx
        rcases hx with hx | hx
        · subst hx
          rcases List.mem_cons.mp hc with h1 | h1
          · simp [h1]
          · exact List.mem_cons_of_mem d (ih (hr ▸ List.mem_cons_self y ys) h1)
        · exact List.mem_cons_of_mem d
            (ih (by rw [hr]; exact List.mem_cons_of_mem y hx) hc)

/-! ### Lemmas about serialization and parsing -/

theorem parseLine_encodeLine (t : Task) : parseLine (encodeLine t) = t := by
  rcases t with ⟨d, text⟩
  cases d
  · simp [encodeLine, parseLine, splitFirst_flag (f := '0') (by decide) text]
  · simp [encodeLine, parseLine, splitFirst_flag (f := '1') (by decide) text]

theorem encodeLine_ne_nil (t : Task) : encodeLine t ≠ [] := by
  simp [encodeLine]

theorem encodeLine_no_nl (t : Task) (h : '\n' ∉ t.text) : '\n' ∉ encodeLine t := by
  rcases t with ⟨d, text⟩
  simp only [encodeLine]
  cases d <;> simp_all

theorem encodeTask_no_cr (t : Task) (h : '\r' ∉ t.text) : '\r' ∉ encodeTask t := by
  rcases t with ⟨d, text⟩
  simp only [encodeTask, encodeLine]
  cases d <;> simp_all

theorem saveContent_no_cr (T : List Task) (h : ∀ t ∈ T, '\r' ∉ t.text) :
    '\r' ∉ saveContent T := by
  intro hmem
  simp only [saveContent, List.mem_flatten] at hmem
  rcases hmem with ⟨l, hl, hmem⟩
  rcases List.mem_map.mp hl with ⟨t, ht, rfl⟩
  exact encodeTask_no_cr t (h t ht) hmem

theorem splitNl_saveContent (T : List Task) (h : ∀ t ∈ T, '\n' ∉ t.text) :
    splitNl (saveContent T) = T.map encodeLine ++ [[]] := by
  induction T with
  | nil => simp [saveContent, splitNl]
  | cons t ts ih =>
    have h1 : saveContent (t :: ts) = encodeLine t ++ '\n' :: saveContent ts := by
      simp [saveContent, encodeTask]
    rw [h1, splitNl_append (saveContent ts) (encodeLine_no_nl t (h t (by simp)))]
    rw [ih (fun u hu => h u (by simp [hu]))]
    simp

theorem load_save (T : List Task)
    (h : ∀ t ∈ T, '\n' ∉ t.text ∧ '\r' ∉ t.text) :
    load_tasks (save_tasks T) = T := by
  have hcr := saveContent_no_cr T (fun t ht => (h t ht).2)
  have hnl := splitNl_saveContent T (fun t ht => (h t ht).1)
  simp only [load_tasks, save_tasks, fileLines]
  rw [univNl_eq_self _ hcr, hnl, List.filter_append]
  have h1 : (T.map encodeLine).filter (fun l => l ≠ []) = T.map encodeLine := by
    apply List.filter_eq_self.mpr
    intro a ha
    rcases List.mem_map.mp ha with ⟨t, _, rfl⟩
    simp [encodeLine_ne_nil]
  have h2 : ([([] : List Char)]).filter (fun l => l ≠ []) = [] := rfl
  rw [h1, h2, List.append_nil, List.map_map]
  have h3 : parseLine ∘ encodeLine = id := funext parseLine_encodeLine
  rw [h3, List.map_id]

theorem parseLine_text_subset (l : List Char) : ∀ c ∈ (parseLine l).text, c ∈ l := by
  intro c hc
  rcases splitFirst_shape '|' l with ⟨x, hx⟩ | ⟨a, b, hab⟩
  · simp [parseLine, hx] at hc; exact hc
  · have hlab := splitFirst_two hab
    by_cases hv : a = ['0'] ∨ a = ['1']
    · simp [parseLine, hab, hv] at hc
      rw [hlab]
      simp [hc]
    · simp [parseLine, hab, hv] at hc
      exact hc

theorem load_tasks_clean (f : Option (List Char)) :
    ∀ t ∈ load_tasks f, '\n' ∉ t.text ∧ '\r' ∉ t.text := by
  intro t ht
  cases f with
  | none => simp [load_tasks] at ht
  | some content =>
    simp only [load_tasks] at ht
    rcases List.mem_map.mp ht with ⟨l, hl, rfl⟩
    have hl2 : l ∈ splitNl (univNl content) := List.mem_of_mem_filter hl
    constructor
    · intro hn
      exact splitNl_no_nl hl2 (parseLine_text_subset l _ hn)
    · intro hr
      exact univNl_no_cr content (splitNl_subset hl2 (parseLine_text_subset l _ hr))

/-! ### Lemmas about list update -/

theorem getD_set_self {α : Type} :
    ∀ (l : List α) (i : Nat) (x d : α), i < l.length → (l.set i x).getD i d = x := by
  intro l
  induction l with
  | nil => intro i x d h; simp at h
  | cons a as ih =>
    intro i x d h
    cases i with
    | zero => simp [List.getD]
    | succ n =>
      simp only [List.set, List.getD_cons_succ]
      exact ih n x d (by simpa using h)

theorem getD_set_ne {α : Type} :
    ∀ (l : List α) (i j : Nat) (x d : α), i ≠ j → (l.set i x).getD j d = l.getD j d := by
  intro l
  induction l with
  | nil => intro i j x d h; simp
  | cons a as ih =>
    intro i j x d h
    cases i with
    | zero =>
      cases j with
      | zero => exact absurd rfl h
      | succ m => simp [List.getD_cons_succ]
    | succ n =>
      cases j with
      | zero => simp [List.getD]
      | succ m =>
        simp only [List.set, List.getD_cons_succ]
        exact ih n m x d (fun he => h (by rw [he]))

/-! ### The claims -/

/-- C1: for every task sequence whose texts contain no embedded line
terminator (`'\n'` or `'\r'`, the characters Python's text mode treats as
line boundaries), `load_tasks` after `save_tasks` reproduces the sequence
exactly: every done flag and every full text, spaces and `'|'` characters
included, in order. -/
theorem save_then_load_id (T : List Task)
    (h : ∀ t ∈ T, '\n' ∉ t.text ∧ '\r' ∉ t.text) :
    load_tasks (save_tasks T) = T :=
  load_save T h

theorem save_then_load_id_witness :
    (∀ t ∈ [Task.mk false (" a |b ".toList), Task.mk true ("x".toList)],
      '\n' ∉ t.text ∧ '\r' ∉ t.text) ∧
    load_tasks (save_tasks
        [Task.mk false (" a |b ".toList), Task.mk true ("x".toList)])
      = [Task.mk false (" a |b ".toList), Task.mk true ("x".toList)] :=
  ⟨by decide, save_then_load_id _ (by decide)⟩

/-- C4: a non-empty file line that does not start with the two characters
`0|` or `1|` (i.e. whose first field is not a valid flag) is parsed by the
fallback path into a not-done task whose text is the entire original
line, and that task is among the tasks `load_tasks` yields. -/
theorem fallback_line_parses_whole (content : List Char) (l : List Char)
    (hl : l ∈ fileLines content)
    (h0 : l.take 2 ≠ ['0', '|']) (h1 : l.take 2 ≠ ['1', '|']) :
    parseLine l = ⟨false, l⟩ ∧ Task.mk false l ∈ load_tasks (some content) := by
  have hp : parseLine l = ⟨false, l⟩ := by
    rcases splitFirst_shape '|' l with ⟨x, hx⟩ | ⟨a, b, hab⟩
    · simp [parseLine, hx]
    · have hlab := splitFirst_two hab
      have hv : ¬(a = ['0'] ∨ a = ['1']) := by
        rintro (rfl | rfl)
        · exact h0 (by rw [hlab]; rfl)
        · exact h1 (by rw [hlab]; rfl)
      simp [parseLine, hab, hv]
  refine ⟨hp, ?_⟩
  simp only [load_tasks]
  exact hp ▸ List.mem_map_of_mem parseLine hl

theorem fallback_line_parses_whole_witness :
    ("2|x".toList ∈ fileLines ("abc\n2|x\n".toList)
      ∧ ("2|x".toList).take 2 ≠ ['0', '|']
      ∧ ("2|x".toList).take 2 ≠ ['1', '|']) ∧
    (parseLine ("2|x".toList) = ⟨false, "2|x".toList⟩
      ∧ Task.mk false ("2|x".toList) ∈ load_tasks (some ("abc\n2|x\n".toList))) :=
  ⟨by decide,
    fallback_line_parses_whole ("abc\n2|x\n".toList) ("2|x".toList)
      (by decide) (by decide) (by decide)⟩

/-- C9: for every backing-file content (absent file included), loading,
saving the result and loading again is a fixed point:
`load_tasks (save_tasks (load_tasks f)) = load_tasks f`; in particular a
fallback-parsed line survives one save/load cycle unchanged. -/
theorem load_save_load_fixed_point (f : Option (List Char)) :
    load_tasks (save_tasks (load_tasks f)) = load_tasks f :=
  load_save (load_tasks f) (load_tasks_clean f)

/-- C10 counterexample: the load is not total "whatever the bytes" — the
single byte `0xFF` is not valid UTF-8, so the strict decode of the backing
file fails (`UnicodeDecodeError`) and the load produces no task list at
all, a failure the claim rules out. -/
theorem load_bytes_decode_error :
    load_tasks_bytes (some [255]) = none ∧ utf8Decode [255] = none := by
  decide

/-- C10 (amended): over any backing-file bytes that decode as UTF-8,
`load_tasks` is total: the load succeeds, every line that is non-empty
after stripping its trailing line terminator yields exactly one task (flag
path or fallback path), an empty line contributes nothing, and the loaded
length equals the number of such non-empty lines; bytes that are not valid
UTF-8 instead abort the load with a decode error before any line is
parsed. -/
theorem load_total_length_utf8 (bytes : List Nat) (content : List Char)
    (h : utf8Decode bytes = some content) :
    load_tasks_bytes (some bytes) = some (load_tasks (some content)) ∧
    (load_tasks (some content)).length
      = (splitNl (univNl content)).countP (fun l => l ≠ []) := by
  constructor
  · simp [load_tasks_bytes, h]
  · simp [load_tasks, fileLines, List.countP_eq_length_filter]

theorem load_total_length_utf8_witness :
    (utf8Decode [48, 124, 97, 10, 10, 49, 124, 195, 169]
      = some ("0|a\n\n1|\xe9".toList)) ∧
    load_tasks_bytes (some [48, 124, 97, 10, 10, 49, 124, 195, 169])
      = some (load_tasks (some ("0|a\n\n1|\xe9".toList))) ∧
    (load_tasks (some ("0|a\n\n1|\xe9".toList))).length
      = (splitNl (univNl ("0|a\n\n1|\xe9".toList))).countP (fun l => l ≠ []) := by
  refine ⟨by decide, ?_, ?_⟩
  · exact (load_total_length_utf8 [48, 124, 97, 10, 10, 49, 124, 195, 169]
      ("0|a\n\n1|\xe9".toList) (by decide)).1
  · exact (load_total_length_utf8 [48, 124, 97, 10, 10, 49, 124, 195, 169]
      ("0|a\n\n1|\xe9".toList) (by decide)).2

/-- C3: an index argument that does not parse as an integer, or parses to
an integer outside `[1, N]`, makes `remove_task` and `mark_done` (with
either flag) leave the in-memory sequence and the backing file unchanged
(no save happens) and print one of the two rejection messages. -/
theorem invalid_index_rejected (tasks : List Task) (file : Option (List Char))
    (index : List Char)
    (h : ∀ v : Int, pyInt index = some v → v < 1 ∨ (tasks.length : Int) < v) :
    ((remove_task tasks file index).tasks = tasks
      ∧ (remove_task tasks file index).file = file
      ∧ ((remove_task tasks file index).out = "Please enter a valid number.\n".toList
        ∨ (remove_task tasks file index).out = "Invalid task number.\n".toList)) ∧
    (∀ b : Bool, (mark_done tasks file index b).tasks = tasks
      ∧ (mark_done tasks file index b).file = file
      ∧ ((mark_done tasks file index b).out = "Please enter a valid number.\n".toList
        ∨ (mark_done tasks file index b).out = "Invalid task number.\n".toList)) := by
  rcases hp : pyInt index with _ | v
  · constructor
    · simp [remove_task, hp]
    · intro b; simp [mark_done, hp]
  · have hv := h v hp
    constructor
    · simp only [remove_task, hp]
      split
      · exact ⟨rfl, rfl, Or.inr rfl⟩
      · exfalso; omega
    · intro b
      simp only [mark_done, hp]
      split
      · exact ⟨rfl, rfl, Or.inr rfl⟩
      · exfalso; omega

theorem invalid_index_rejected_witness :
    (∀ v : Int, pyInt ("5".toList) = some v
      → v < 1 ∨ (([Task.mk false ("a".toList)] : List Task).length : Int) < v) ∧
    (remove_task [Task.mk false ("a".toList)] (some ("0|a\n".toList)) ("5".toList)).tasks
      = [Task.mk false ("a".toList)] := by
  have hh : ∀ v : Int, pyInt ("5".toList) = some v
      → v < 1 ∨ (([Task.mk false ("a".toList)] : List Task).length : Int) < v := by
    intro v hv
    have h5 : pyInt ("5".toList) = some 5 := by decide
    rw [h5] at hv
    rw [← Option.some.inj hv]
    decide
  exact ⟨hh, (invalid_index_rejected _ _ _ hh).1.1⟩

/-- C6: `add_task` with an argument that strips to nothing leaves the
sequence and file unchanged (no save) and prints the rejection message;
with any argument of non-whitespace content it appends exactly the
not-done task with the stripped text and persists. -/
theorem add_task_spec (tasks : List Task) (file : Option (List Char)) (text : List Char) :
    (pyStrip text = [] →
      add_task tasks file text = ⟨tasks, file, "Empty task not added.\n".toList⟩) ∧
    (pyStrip text ≠ [] →
      add_task tasks file text
        = ⟨tasks ++ [⟨false, pyStrip text⟩],
            save_tasks (tasks ++ [⟨false, pyStrip text⟩]),
            "Added task: ".toList ++ pyStrip text ++ ['\n']⟩) := by
  constructor <;> intro h <;> simp [add_task, h]

theorem add_task_spec_witness :
    (pyStrip ("   ".toList) = [] ∧
      add_task [] none ("   ".toList) = ⟨[], none, "Empty task not added.\n".toList⟩) ∧
    (pyStrip (" buy milk ".toList) ≠ [] ∧
      add_task [] none (" buy milk ".toList)
        = ⟨[] ++ [⟨false, pyStrip (" buy milk ".toList)⟩],
            save_tasks ([] ++ [⟨false, pyStrip (" buy milk ".toList)⟩]),
            "Added task: ".toList ++ pyStrip (" buy milk ".toList) ++ ['\n']⟩) :=
  ⟨⟨by decide, (add_task_spec [] none _).1 (by decide)⟩,
    ⟨by decide, (add_task_spec [] none _).2 (by decide)⟩⟩

/-- C7: `mark_done` with a valid 1-based index `v` and flag `b` sets the
done flag of the task at position `v` to `b` and changes nothing else —
length, order, every text, and all other done flags are unchanged — and
prints the status line with the original user-supplied index string. -/
theorem mark_done_frame (tasks : List Task) (file : Option (List Char))
    (index : List Char) (v : Int) (b : Bool)
    (hp : pyInt index = some v) (h1 : 1 ≤ v) (h2 : v ≤ (tasks.length : Int)) :
    (mark_done tasks file index b).tasks.length = tasks.length ∧
    ((mark_done tasks file index b).tasks.getD ((v - 1).toNat) default).done = b ∧
    ((mark_done tasks file index b).tasks.getD ((v - 1).toNat) default).text
      = (tasks.getD ((v - 1).toNat) default).text ∧
    (∀ j : Nat, j ≠ (v - 1).toNat →
      (mark_done tasks file index b).tasks.getD j default = tasks.getD j default) ∧
    (mark_done tasks file index b).out
      = "Marked task ".toList ++ index ++ " as: ".toList
        ++ (if b then "Done" else "Not done").toList ++ ['\n'] := by
  have hc : ¬(v - 1 < 0 ∨ v - 1 ≥ (tasks.length : Int)) := by omega
  have hi : (v - 1).toNat < tasks.length := by omega
  simp only [mark_done, hp]
  rw [if_neg hc]
  refine ⟨by simp, ?_, ?_, ?_, rfl⟩
  · rw [getD_set_self _ _ _ _ hi]
  · rw [getD_set_self _ _ _ _ hi]
  · intro j hj
    exact getD_set_ne _ _ _ _ _ (fun he => hj he.symm)

theorem mark_done_frame_witness :
    (pyInt ("2".toList) = some 2 ∧ (1 : Int) ≤ 2
      ∧ (2 : Int) ≤ (([Task.mk false ("a".toList), Task.mk true ("b".toList)] : List Task).length : Int)) ∧
    ((mark_done [Task.mk false ("a".toList), Task.mk true ("b".toList)]
        (some []) ("2".toList) false).tasks.getD (((2 : Int) - 1).toNat) default).done
      = false := by
  refine ⟨⟨by decide, by decide, by decide⟩, ?_⟩
  exact (mark_done_frame _ (some []) _ 2 false (by decide) (by decide) (by decide)).2.1

/-- C2: the command loop's reconciliation invariant — the state `main`
starts from satisfies `tasks = load_tasks file`, and one loop iteration
(any command, the mutating ones included, with any prompt input) preserves
it, so the in-memory list always equals a fresh load of the backing file
before the next command is dispatched. -/
theorem loop_reconciliation :
    (∀ f : Option (List Char), (initState f).tasks = load_tasks (initState f).file) ∧
    (∀ (st : LoopState) (line promptLine : List Char),
      st.tasks = load_tasks st.file →
      ((step st line promptLine).1).tasks
        = load_tasks ((step st line promptLine).1).file) := by
  constructor
  · intro f; rfl
  · intro st line promptLine h
    simp only [step]
    split
    · exact h
    · split
      · exact h
      · split
        · dsimp only
        · split
          · dsimp only
          · split
            · dsimp only
            · split
              · dsimp only
              · split
                · split
                  · dsimp only [clear_tasks, load_tasks]
                  · exact h
                · split
                  · exact h
                  · split
                    · exact h
                    · exact h

theorem loop_reconciliation_witness :
    ((initState (some ("0|a\n".toList))).tasks
      = load_tasks (initState (some ("0|a\n".toList))).file) ∧
    ((step (initState (some ("0|a\n".toList))) ("add milk".toList) []).1).tasks
      = load_tasks ((step (initState (some ("0|a\n".toList))) ("add milk".toList) []).1).file :=
  ⟨by decide, loop_reconciliation.2 _ _ _ (by decide)⟩

/-- C5 counterexample: after adding "buy milk" and "walk dog" to an empty
list, the listing's standard output is not just the three lines the claim
names — it begins with a blank line (from the leading `\n` of the header
print) and ends with a trailing blank line (the final bare `print()`), as
the second equation exhibits. -/
theorem listing_has_blank_lines :
    list_tasks (add_task (add_task [] none ("buy milk".toList)).tasks
        (add_task [] none ("buy milk".toList)).file ("walk dog".toList)).tasks
      ≠ "Your To-Do List:\n 1. [ ] buy milk\n 2. [ ] walk dog\n".toList ∧
    list_tasks (add_task (add_task [] none ("buy milk".toList)).tasks
        (add_task [] none ("buy milk".toList)).file ("walk dog".toList)).tasks
      = "\nYour To-Do List:\n 1. [ ] buy milk\n 2. [ ] walk dog\n\n".toList := by
  decide

/-- C5 (amended): starting from an empty task list, adding "buy milk" and
then "walk dog" and listing prints exactly a blank line, the header
`Your To-Do List:`, ` 1. [ ] buy milk`, ` 2. [ ] walk dog` (2-width
right-aligned indices, `[ ]` for not-done), and a trailing blank line. -/
theorem add_add_list_output :
    list_tasks (add_task (add_task [] none ("buy milk".toList)).tasks
        (add_task [] none ("buy milk".toList)).file ("walk dog".toList)).tasks
      = "\nYour To-Do List:\n 1. [ ] buy milk\n 2. [ ] walk dog\n\n".toList := by
  decide

/-- C8 counterexample: the confirmation input `"Y"` is not the string
`"y"`, yet `clear` followed by it does not leave the state unchanged — it
deletes the backing file and empties the list, because the loop
lower-cases the stripped confirmation before comparing. -/
theorem clear_uppercase_confirms :
    "Y".toList ≠ "y".toList ∧
    (step ⟨[Task.mk false ("a".toList)], some ("0|a\n".toList)⟩
        ("clear".toList) ("Y".toList)).1
      ≠ ⟨[Task.mk false ("a".toList)], some ("0|a\n".toList)⟩ ∧
    (step ⟨[Task.mk false ("a".toList)], some ("0|a\n".toList)⟩
        ("clear".toList) ("Y".toList)).1.file = none := by
  decide

/-- C8 (amended): `clear` followed by a confirmation whose stripped,
lower-cased form is not `"y"` leaves the in-memory list and the backing
file unchanged and prints `Canceled.`; a confirmation whose stripped,
lower-cased form is `"y"` deletes the backing file (total, no error when
absent) and empties the in-memory list. -/
theorem clear_confirmation_gating (st : LoopState) (inp : List Char) :
    (pyLower (pyStrip inp) ≠ "y".toList →
      (step st ("clear".toList) inp).1 = st ∧
      (step st ("clear".toList) inp).2.1 = "Canceled.\n".toList) ∧
    (pyLower (pyStrip inp) = "y".toList →
      (step st ("clear".toList) inp).1.tasks = [] ∧
      (step st ("clear".toList) inp).1.file = none ∧
      (step st ("clear".toList) inp).2.1 = "All tasks cleared.\n".toList) := by
  have he : step st ("clear".toList) inp
      = if pyLower (pyStrip inp) = "y".toList then
          (⟨[], none⟩, "All tasks cleared.\n".toList, false)
        else (st, "Canceled.\n".toList, false) := by
    simp +decide [step, clear_tasks]
  constructor
  · intro h; rw [he, if_neg h]; exact ⟨rfl, rfl⟩
  · intro h; rw [he, if_pos h]; exact ⟨rfl, rfl, rfl⟩

theorem clear_confirmation_gating_witness :
    ((step ⟨[Task.mk true ("a".toList)], some ("1|a\n".toList)⟩
        ("clear".toList) ("n".toList)).1
      = ⟨[Task.mk true ("a".toList)], some ("1|a\n".toList)⟩) ∧
    ((step ⟨[Task.mk true ("a".toList)], some ("1|a\n".toList)⟩
        ("clear".toList) ("y".toList)).1.file = none) := by
  constructor
  · exact ((clear_confirmation_gating _ _).1 (by decide)).1
  · exact ((clear_confirmation_gating _ _).2 (by decide)).2.1

end Todo
